import Mathlib

/-!
Verification of the Glide browser IDE glue layer (`src/app.js`) against its
natural-language specification.

The program is DOM event wiring over two external components (a CodeMirror
editor widget and the Pyodide Python runtime).  We shallow-embed the
program's own logic as pure Lean functions over an explicit `AppState`;
the external components appear as parameters:

* the interpreter's outcome of running a source string is an
  `Except String Unit` (`.error e` carries the thrown error's message, as
  read by the handler via `e.message`);
* the variable-inspection query is an `Except` carrying the interpreter's
  globals snapshot (name ↦ repr string) together with `dir(builtins)`;
* the editor document is modelled as an ordered list of lines with a
  cursor, per the spec's data model (the widget owns it; its
  `replaceRange`/`getCursor` primitives follow standard text-buffer
  semantics).

JavaScript string primitives used by the code (`replace(/\r\n/g,"\n")`,
`endsWith`, `includes`, `trim`, `toLowerCase`, `split("\n")`, `slice`) are
embedded as executable functions over `List Char` below.
-/

/-- Model of JS `s.replace(/\r\n/g, "\n")`: a left-to-right,
non-overlapping rewrite of each CR-LF pair to LF. -/
def normalizeCRLF : List Char → List Char
  | [] => []
  | '\r' :: '\n' :: rest => '\n' :: normalizeCRLF rest
  | c :: rest => c :: normalizeCRLF rest

/-- Model of JS `s.endsWith("\n")`: the last character is a newline. -/
def endsWithNLb (s : String) : Bool :=
  s.data.getLast? == some '\n'

/-- The text that one `appendOutput(text)` call adds to the output buffer:
the CR-LF-normalized text, with a trailing newline added exactly when the
normalized text is non-empty and does not already end with one
(JS: `const needsNL = s.length && !s.endsWith("\n")`). -/
def appendChunk (t : String) : String :=
  let s := String.mk (normalizeCRLF t.data)
  if s.length != 0 && !endsWithNLb s then s ++ "\n" else s

/-- Model of JS `String.prototype.trim`: strip leading and trailing
whitespace characters. -/
def jsTrim (s : String) : String :=
  String.mk (((s.data.dropWhile Char.isWhitespace).reverse.dropWhile
    Char.isWhitespace).reverse)

/-- Model of JS `s.split("\n")` (on character lists): the list of
newline-separated segments; never empty. -/
def splitOnNL : List Char → List (List Char)
  | [] => [[]]
  | '\n' :: rest => [] :: splitOnNL rest
  | c :: rest =>
    match splitOnNL rest with
    | [] => [[c]]
    | h :: t => (c :: h) :: t

/-- Inverse of `splitOnNL`: interleave the segments with newlines. -/
def joinNL : List (List Char) → List Char
  | [] => []
  | [x] => x
  | x :: y :: t => x ++ '\n' :: joinNL (y :: t)

/-- Model of JS `hay.includes(needle)` (on character lists). -/
def containsSub (needle : List Char) : List Char → Bool
  | [] => needle.isEmpty
  | c :: t => needle.isPrefixOf (c :: t) || containsSub needle t

/-- Number of occurrences of `needle` in `hay` (counting starting
positions). -/
def countOccur (needle : List Char) : List Char → Nat
  | [] => if needle.isEmpty then 1 else 0
  | c :: t => (if needle.isPrefixOf (c :: t) then 1 else 0) + countOccur needle t

/-- Number of newline characters a string ends with. -/
def trailingNL (s : String) : Nat :=
  (s.data.reverse.takeWhile (fun c => c == '\n')).length

/-- The page state touched by `src/app.js`: the output region's text
(`outputEl.textContent`), the two status indicators, the Run button's
`disabled` flag, the readiness flag `pyReady`, the editor's current
contents (`editor.getValue()`), the variable panel's text
(`variables` element), and the developer console log. -/
structure AppState where
  output : String
  runtimeStatus : String
  editorStatus : String
  runBtnDisabled : Bool
  pyReady : Bool
  editorValue : String
  variablesText : String
  consoleLog : List String
deriving Repr, DecidableEq

/-- Function `appendOutput(text)` from `src/app.js` lines 28–34: no-op when the
argument is null (`none`), otherwise appends the normalized chunk to the
output buffer.  (The auto-scroll assignment touches no modelled state.) -/
def appendOutput (text : Option String) (st : AppState) : AppState :=
  match text with
  | none => st
  | some t => { st with output := st.output ++ appendChunk t }

/-- Function `setOutput(text)` from `src/app.js` lines 36–38, as used by the Clear
button (`setOutput("")`). -/
def setOutput (text : String) (st : AppState) : AppState :=
  { st with output := text }

/-- The Clear button handler: `clearBtn.addEventListener('click', () => setOutput(""))`. -/
def clearClick (st : AppState) : AppState :=
  setOutput "" st

/-- The page's initial state: empty output, `pyReady = false`, the
editor seeded with the welcome program (`src/app.js` lines 2–16). -/
def initState : AppState :=
  { output := ""
    runtimeStatus := ""
    editorStatus := ""
    runBtnDisabled := false
    pyReady := false
    editorValue := "#Welcome to Glide, an online Python IDE\n#Try snippets from the left or type your own code, then click 'Run'\n\nprint(\"Hello, world!\")\n"
    variablesText := ""
    consoleLog := [] }

/-- The async IIFE at `src/app.js` lines 41–67 that loads Pyodide and
patches `input()`.  `loadRes` is the outcome of `loadPyodide(...)`,
`patchRes` the outcome of the `runPythonAsync` input-patch step (only
reached when the load succeeded).  On success `pyReady` becomes true and
the status reads "Python ready"; on either failure the catch block sets
the status to "Failed to load Python" and appends
`"Error loading Pyodide:\n" + e.message` to the output. -/
def loadRuntime (loadRes patchRes : Except String Unit) (st : AppState) : AppState :=
  let st0 := { st with runtimeStatus := "Loading Python runtime…" }
  match loadRes with
  | .error e =>
    appendOutput (some ("Error loading Pyodide:\n" ++ e))
      { st0 with runtimeStatus := "Failed to load Python" }
  | .ok _ =>
    match patchRes with
    | .error e =>
      appendOutput (some ("Error loading Pyodide:\n" ++ e))
        { st0 with runtimeStatus := "Failed to load Python" }
    | .ok _ => { st0 with pyReady := true, runtimeStatus := "Python ready" }

/-- Test `k.startswith("__")` from the inspection snippet run by
`updateVariables`. -/
def startsWithDunder (k : String) : Bool :=
  "__".data.isPrefixOf k.data

/-- The dict comprehension `src/app.js` lines 158–162 executes in the
interpreter: keep the globals whose name neither starts with `__` nor
occurs in `dir(builtins)`; values are their `repr` strings. -/
def pyVarsFilter (globals : List (String × String)) (builtins : List String) :
    List (String × String) :=
  globals.filter (fun kv => !startsWithDunder kv.1 && !builtins.contains kv.1)

/-- The rendering loop of `updateVariables` (`src/app.js` lines 164–173):
"(no variables)" for an empty mapping, otherwise one `k = v` line per
entry in iteration order. -/
def renderVars (vars : List (String × String)) : String :=
  if vars.length = 0 then "(no variables)"
  else vars.foldl (fun acc kv => acc ++ kv.1 ++ " = " ++ kv.2 ++ "\n") ""

/-- Function `updateVariables()` from `src/app.js` lines 154–177.  `inspect` is the
outcome of the `pyodide.runPython` inspection query: on success it yields
the globals snapshot (name ↦ repr) and `dir(builtins)`; on failure the
catch block only writes to the developer console. -/
def updateVariables (inspect : Except String (List (String × String) × List String))
    (st : AppState) : AppState :=
  if st.pyReady = false then st
  else
    match inspect with
    | .error e =>
      { st with consoleLog := st.consoleLog ++ ["Error updating variables: " ++ e] }
    | .ok (globals, builtins) =>
      { st with variablesText := renderVars (pyVarsFilter globals builtins) }

/-- The state in which the Run handler performs execution: button
disabled, status "Running…" (`src/app.js` lines 75–76). -/
def runningState (st : AppState) : AppState :=
  { st with runBtnDisabled := true, editorStatus := "Running…" }

/-- The Run button click handler (`src/app.js` lines 70–90).  `res1` is
the outcome of `runPythonAsync("import sys, traceback")`, `res2` that of
running the editor's code, `inspect` the variable-inspection outcome.
Returns the new state together with the list of source strings passed to
the interpreter (empty when execution never happens).  The `finally`
block's `runBtn.disabled = false` appears on every path past the
readiness check. -/
def runClick (res1 res2 : Except String Unit)
    (inspect : Except String (List (String × String) × List String))
    (st : AppState) : AppState × List String :=
  if st.pyReady = false then
    (appendOutput (some "Runtime not ready yet.\n") st, [])
  else
    let st1 := runningState st
    let code := st.editorValue
    match res1 with
    | .error e =>
      let st2 := { appendOutput (some (e ++ "\n")) st1 with editorStatus := "Error" }
      ({ st2 with runBtnDisabled := false }, ["import sys, traceback"])
    | .ok _ =>
      match res2 with
      | .error e =>
        let st2 := { appendOutput (some (e ++ "\n")) st1 with editorStatus := "Error" }
        ({ st2 with runBtnDisabled := false }, ["import sys, traceback", code])
      | .ok _ =>
        let st3 := updateVariables inspect { st1 with editorStatus := "Done" }
        ({ st3 with runBtnDisabled := false }, ["import sys, traceback", code])

/-- The attribution comment text the download handler searches for
(`code.includes('# Written using GLIDE')`). -/
def footerMark : String := "# Written using GLIDE"

/-- The footer appended by the download handler
(`const footer = '\n\n# Written using GLIDE\n'`). -/
def footer : String := "\n\n# Written using GLIDE\n"

/-- The download handler's newline step (`src/app.js` line 99):
`if (!code.endsWith('\n') && code.length) code += '\n'`. -/
def ensureNL (code : String) : String :=
  if !endsWithNLb code && code.length != 0 then code ++ "\n" else code

/-- The downloaded file content built by the download handler
(`src/app.js` lines 97–100). -/
def downloadContent (code : String) : String :=
  let code1 := ensureNL code
  if !containsSub footerMark.data code1.data then code1 ++ footer else code1

/-- The suggested file name (`const suggested = 'glide_code.py'`). -/
def defaultName : String := "glide_code.py"

/-- Expression `(prompt('File name for download:', suggested) || suggested).trim()`
from `src/app.js` line 103.  `none` models a cancelled prompt (JS `null`);
both `null` and the empty string are falsy, so they fall back to the
suggested name before trimming. -/
def promptedName (answer : Option String) : String :=
  jsTrim (match answer with
          | none => defaultName
          | some a => if a = "" then defaultName else a)

/-- Test `name.toLowerCase().endsWith('.py')` from `src/app.js` line 104. -/
def endsWithPy (name : String) : Bool :=
  ".py".data.isSuffixOf (name.data.map Char.toLower)

/-- The final download file name (`src/app.js` lines 102–104). -/
def downloadFilename (answer : Option String) : String :=
  let name := promptedName answer
  if endsWithPy name then name else name ++ ".py"

/-- The fixed local-storage key of the toolbox state
(`const KEY = "glide.toolbox.state.v1"`). -/
def toolboxKey : String := "glide.toolbox.state.v1"

/-- JS object property assignment `state[k] = v` on a flat
string-to-boolean object kept as an ordered association list: replace in
place when the key exists, else append. -/
def setKey (m : List (String × Bool)) (k : String) (v : Bool) : List (String × Bool) :=
  if m.any (fun p => p.1 == k) then
    m.map (fun p => if p.1 == k then (k, v) else p)
  else m ++ [(k, v)]

/-- JS object property read `state[k]` on the stored object. -/
def getKey (m : List (String × Bool)) (k : String) : Option Bool :=
  (m.find? (fun p => p.1 == k)).map (fun p => p.2)

/-- Modelled from the spec: the browser's local storage, restricted to the
single fixed key `toolboxKey` the program uses, holding the stored JSON
object (spec §4.6: "reads a JSON object from local storage keyed by a
fixed namespace string", "rewrites the entire stored object").
`JSON.parse ∘ JSON.stringify` is the identity on such flat
string-to-boolean objects, so serialization is modelled as storing the
object itself; `storage = none` models an absent key. -/
structure ToolboxEnv where
  state : List (String × Bool)
  storage : Option (List (String × Bool))
deriving Repr, DecidableEq

/-- A section's toggle handler (`src/app.js` lines 129–132): update the
in-memory state object at the section's data key and rewrite the entire
stored object under `toolboxKey`. -/
def onToggle (env : ToolboxEnv) (k : String) (openNow : Bool) : ToolboxEnv :=
  let newState := setKey env.state k openNow
  { state := newState, storage := some newState }

/-- The state object read on page load (`src/app.js` line 124):
`JSON.parse(localStorage.getItem(KEY) || "{}")`, with a missing key (or a
parse failure) yielding the empty object. -/
def loadState (storage : Option (List (String × Bool))) : List (String × Bool) :=
  storage.getD []

/-- The restore step on page load for one section (`src/app.js` lines
127–128): `if (k && typeof state[k] === "boolean") sec.open = state[k]`.
`cur` is the section's open state before restoration; an empty data key
is falsy in JS, so it is skipped. -/
def restoreOpen (storage : Option (List (String × Bool))) (k : String) (cur : Bool) : Bool :=
  if k == "" then cur
  else
    match getKey (loadState storage) k with
    | some b => b
    | none => cur

/-- A cursor position in the editor document (CodeMirror's
`{line, ch}`). -/
structure Pos where
  line : Nat
  ch : Nat
deriving Repr, DecidableEq

/-- Modelled from the spec: the editor document, an "ordered sequence of
text lines" owned by the editor widget (spec §3). -/
structure Doc where
  lines : List String
deriving Repr, DecidableEq

/-- Modelled from the spec: the editor widget's
`doc.replaceRange(text, cursor)` insertion primitive followed by
`doc.getCursor()`, per standard text-buffer semantics: the line at the
cursor is split at the cursor column, the inserted text's
newline-separated segments are spliced in, and the cursor lands at the
end of the inserted text. -/
def replaceRange (d : Doc) (text : String) (p : Pos) : Doc × Pos :=
  let lineText := (d.lines.getD p.line "").data
  let before := lineText.take p.ch
  let after := lineText.drop p.ch
  let newSegs := (splitOnNL (before ++ text.data ++ after)).map String.mk
  let newLines := d.lines.take p.line ++ newSegs ++ d.lines.drop (p.line + 1)
  let nNL := text.data.count '\n'
  let endCh := if nNL = 0 then p.ch + text.data.length
               else ((splitOnNL text.data).getLastD []).length
  (⟨newLines⟩, ⟨p.line + nNL, endCh⟩)

/-- The result of a snippet insertion: the new document, the cursor
position after insertion, and the list of line numbers passed to
`editor.indentLine(i, "smart")` (the editor's automatic indentation rule,
an external widget operation). -/
structure InsertResult where
  doc : Doc
  endPos : Pos
  indented : List Nat
deriving Repr, DecidableEq

/-- Function `insertSnippet(snippet)` from `src/app.js` lines 137–152: prefix a
newline when the part of the cursor's line before the cursor has
non-whitespace content (`lineText.slice(0, cursor.ch).trim().length > 0`),
insert at the cursor, then indent every line from
`endPos.line - (snippet.split("\n").length - 1)` through `endPos.line`. -/
def insertSnippet (d : Doc) (cursor : Pos) (snippet : String) : InsertResult :=
  let lineText := (d.lines.getD cursor.line "").data
  let beforeCursor := String.mk (lineText.take cursor.ch)
  let needsLeadingNL := if 0 < (jsTrim beforeCursor).length then "\n" else ""
  let inserted := replaceRange d (needsLeadingNL ++ snippet) cursor
  let endPos := inserted.2
  let insertedLines := (splitOnNL snippet.data).length - 1
  let startLine := endPos.line - insertedLines
  { doc := inserted.1
    endPos := endPos
    indented := List.range' startLine (endPos.line - startLine + 1) }

/-- The rendering of a variable mapping as one `name = value` line per
entry in iteration order, written as plain recursion; compared with the
`foldl` loop of `renderVars`. -/
def varLines : List (String × String) → String
  | [] => ""
  | kv :: rest => kv.1 ++ " = " ++ kv.2 ++ "\n" ++ varLines rest

/-- The text of the cursor's line, `doc.getLine(cursor.line)` in
`insertSnippet`. -/
def cursorLineText (d : Doc) (c : Pos) : List Char := (d.lines.getD c.line "").data

/-- The portion of the cursor's line before the cursor,
`lineText.slice(0, cursor.ch)` in `insertSnippet`. -/
def beforeCursor (d : Doc) (c : Pos) : List Char := (cursorLineText d c).take c.ch

/-! ### Shared helper lemmas -/

theorem str_data_append (a b : String) : (a ++ b).data = a.data ++ b.data := rfl

theorem str_mk_data (l : List Char) : (String.mk l).data = l := rfl

theorem str_ne_empty_iff (s : String) : s ≠ "" ↔ s.data ≠ [] := by
  have h0 : ("" : String).data = [] := rfl
  rw [ne_eq, String.ext_iff, h0, ← ne_eq]

theorem normalizeCRLF_ne_nil : ∀ l : List Char, l ≠ [] → normalizeCRLF l ≠ [] := by
  intro l h
  rw [normalizeCRLF.eq_def]
  split
  · exact h
  · simp
  · simp

theorem endsWithNLb_append_nl (s : String) : endsWithNLb (s ++ "\n") = true := by
  have h1 : (s ++ "\n").data = s.data ++ ['\n'] := rfl
  simp [endsWithNLb, h1, List.getLast?_concat]

theorem appendChunk_props (t : String) (h : t ≠ "") :
    endsWithNLb (appendChunk t) = true ∧ appendChunk t ≠ "" ∧
    appendChunk t =
      (if endsWithNLb (String.mk (normalizeCRLF t.data)) then String.mk (normalizeCRLF t.data)
       else String.mk (normalizeCRLF t.data) ++ "\n") := by
  have hd : t.data ≠ [] := (str_ne_empty_iff t).mp h
  have hn := normalizeCRLF_ne_nil t.data hd
  have hlen : (String.mk (normalizeCRLF t.data)).length ≠ 0 := by
    simp [String.length, List.length_eq_zero]
    exact hn
  by_cases he : endsWithNLb (String.mk (normalizeCRLF t.data))
  · have hch : appendChunk t = String.mk (normalizeCRLF t.data) := by
      unfold appendChunk
      simp [hlen, he]
    refine ⟨?_, ?_, ?_⟩
    · rw [hch]; exact he
    · rw [hch, str_ne_empty_iff, str_mk_data]; exact hn
    · rw [hch, if_pos he]
  · have hch : appendChunk t = String.mk (normalizeCRLF t.data) ++ "\n" := by
      unfold appendChunk
      simp [hlen, he]
      exact fun h2 => absurd h2 hn
    refine ⟨?_, ?_, ?_⟩
    · rw [hch]; exact endsWithNLb_append_nl _
    · rw [hch, str_ne_empty_iff, str_data_append]
      simp
    · rw [hch, if_neg he]

theorem endsWithNLb_append_of (a b : String) (hb : b ≠ "") (he : endsWithNLb b = true) :
    endsWithNLb (a ++ b) = true := by
  have h1 : (a ++ b).data = a.data ++ b.data := rfl
  have hbd : b.data ≠ [] := (str_ne_empty_iff b).mp hb
  simp only [endsWithNLb, h1]
  rw [List.getLast?_append_of_ne_nil _ hbd]
  simpa [endsWithNLb] using he

theorem updateVariables_pyReady (insp : Except String (List (String × String) × List String))
    (st : AppState) : (updateVariables insp st).pyReady = st.pyReady := by
  unfold updateVariables
  split
  · rfl
  · match insp with
    | .error e => rfl
    | .ok (g, b) => rfl

theorem runClick_pyReady (r1 r2 : Except String Unit)
    (insp : Except String (List (String × String) × List String)) (st : AppState) :
    (runClick r1 r2 insp st).1.pyReady = st.pyReady := by
  unfold runClick
  split
  · rfl
  · match r1 with
    | .error e => rfl
    | .ok _ =>
      match r2 with
      | .error e => rfl
      | .ok _ =>
        simp only
        rw [updateVariables_pyReady]
        simp [runningState]

theorem notReadyChunk : appendChunk "Runtime not ready yet.\n" = "Runtime not ready yet.\n" := by
  decide

/-- C1: for every click of the Run control while the readiness flag is
false, the handler performs no execution of editor code (the list of
sources handed to the interpreter is empty) and appends exactly one
"not ready" notice to the output sink, leaving all other state
unchanged. -/
theorem C1_run_not_ready (r1 r2 : Except String Unit)
    (insp : Except String (List (String × String) × List String))
    (st : AppState) (h : st.pyReady = false) :
    runClick r1 r2 insp st =
      ({ st with output := st.output ++ "Runtime not ready yet.\n" }, []) := by
  unfold runClick
  rw [if_pos h]
  simp [appendOutput, notReadyChunk]

theorem C1_run_not_ready_witness :
    initState.pyReady = false ∧
    runClick (.ok ()) (.ok ()) (.ok ([], [])) initState =
      ({ initState with output := initState.output ++ "Runtime not ready yet.\n" }, []) :=
  ⟨rfl, C1_run_not_ready (.ok ()) (.ok ()) (.ok ([], [])) initState rfl⟩

/-- C4: for every non-empty (non-null) input string, `appendOutput`
leaves the output buffer ending in a newline; the appended chunk is the
CR-LF-normalized text with a trailing newline added exactly when the
normalized text does not already end with one; and for null input
`appendOutput` leaves the state unchanged. -/
theorem C4_appendOutput_newline (t : String) (st : AppState) (h : t ≠ "") :
    endsWithNLb (appendOutput (some t) st).output = true ∧
    (appendOutput (some t) st).output =
      st.output ++
        (if endsWithNLb (String.mk (normalizeCRLF t.data)) then String.mk (normalizeCRLF t.data)
         else String.mk (normalizeCRLF t.data) ++ "\n") ∧
    appendOutput none st = st := by
  obtain ⟨h1, h2, h3⟩ := appendChunk_props t h
  refine ⟨?_, ?_, rfl⟩
  · show endsWithNLb (st.output ++ appendChunk t) = true
    exact endsWithNLb_append_of _ _ h2 h1
  · show st.output ++ appendChunk t = _
    rw [h3]

theorem C4_appendOutput_newline_witness :
    ("out" : String) ≠ "" ∧
    (endsWithNLb (appendOutput (some "out") initState).output = true ∧
     (appendOutput (some "out") initState).output =
       initState.output ++
         (if endsWithNLb (String.mk (normalizeCRLF ("out" : String).data))
          then String.mk (normalizeCRLF ("out" : String).data)
          else String.mk (normalizeCRLF ("out" : String).data) ++ "\n") ∧
     appendOutput none initState = initState) :=
  ⟨by decide, C4_appendOutput_newline "out" initState (by decide)⟩

/-- C2: starting from a state whose readiness flag is false (the page's
initial value), the loader leaves the flag true exactly when both the
interpreter load and the input-patch step succeed; on any failure the
flag is false, the status indicator reads "Failed to load Python" and a
human-readable error message is appended to the output sink; and no
other handler (Run, Clear, variable refresh) ever modifies the flag, so
with no retry of the loader it remains false forever. -/
theorem C2_readiness_gate (loadRes patchRes : Except String Unit) (st : AppState)
    (h : st.pyReady = false) :
    ((loadRuntime loadRes patchRes st).pyReady = true ↔
      loadRes = Except.ok () ∧ patchRes = Except.ok ()) ∧
    (¬(loadRes = Except.ok () ∧ patchRes = Except.ok ()) →
      (loadRuntime loadRes patchRes st).pyReady = false ∧
      (loadRuntime loadRes patchRes st).runtimeStatus = "Failed to load Python" ∧
      ∃ e, (loadRuntime loadRes patchRes st).output =
        st.output ++ appendChunk ("Error loading Pyodide:\n" ++ e)) ∧
    (∀ (r1 r2 : Except String Unit)
       (insp : Except String (List (String × String) × List String)) (st' : AppState),
      (runClick r1 r2 insp st').1.pyReady = st'.pyReady ∧
      (clearClick st').pyReady = st'.pyReady ∧
      (updateVariables insp st').pyReady = st'.pyReady) := by
  refine ⟨?_, ?_, fun r1 r2 insp st' =>
    ⟨runClick_pyReady r1 r2 insp st', rfl, updateVariables_pyReady insp st'⟩⟩
  · match loadRes with
    | .error e => simp [loadRuntime, appendOutput, h]
    | .ok u =>
      match patchRes with
      | .error e => cases u; simp [loadRuntime, appendOutput, h]
      | .ok v => cases u; cases v; simp [loadRuntime]
  · intro hf
    match loadRes with
    | .error e =>
      refine ⟨?_, ?_, ⟨e, ?_⟩⟩ <;> simp [loadRuntime, appendOutput, h]
    | .ok u =>
      match patchRes with
      | .error e =>
        cases u
        refine ⟨?_, ?_, ⟨e, ?_⟩⟩ <;> simp [loadRuntime, appendOutput, h]
      | .ok v => cases u; cases v; exact absurd ⟨rfl, rfl⟩ hf

theorem C2_readiness_gate_witness :
    initState.pyReady = false ∧
    (((loadRuntime (.error "network down") (.ok ()) initState).pyReady = true ↔
       (Except.error "network down" : Except String Unit) = Except.ok () ∧
         (Except.ok () : Except String Unit) = Except.ok ()) ∧
     (¬((Except.error "network down" : Except String Unit) = Except.ok () ∧
          (Except.ok () : Except String Unit) = Except.ok ()) →
       (loadRuntime (.error "network down") (.ok ()) initState).pyReady = false ∧
       (loadRuntime (.error "network down") (.ok ()) initState).runtimeStatus =
         "Failed to load Python" ∧
       ∃ e, (loadRuntime (.error "network down") (.ok ()) initState).output =
         initState.output ++ appendChunk ("Error loading Pyodide:\n" ++ e)) ∧
     (∀ (r1 r2 : Except String Unit)
        (insp : Except String (List (String × String) × List String)) (st' : AppState),
       (runClick r1 r2 insp st').1.pyReady = st'.pyReady ∧
       (clearClick st').pyReady = st'.pyReady ∧
       (updateVariables insp st').pyReady = st'.pyReady)) :=
  ⟨rfl, C2_readiness_gate (.error "network down") (.ok ()) initState rfl⟩

/-- C3: for every run started with readiness true, the Run control is
disabled in the state in which execution takes place, and in the final
state it is re-enabled regardless of whether execution completed
normally or raised an error (the `finally` block runs on every path);
the run does hand sources to the interpreter. -/
theorem C3_runBtn_cleanup (r1 r2 : Except String Unit)
    (insp : Except String (List (String × String) × List String))
    (st : AppState) (h : st.pyReady = true) :
    (runningState st).runBtnDisabled = true ∧
    (runClick r1 r2 insp st).1.runBtnDisabled = false ∧
    (runClick r1 r2 insp st).2 ≠ [] := by
  have hn : ¬ st.pyReady = false := by simp [h]
  refine ⟨rfl, ?_, ?_⟩
  · unfold runClick
    rw [if_neg hn]
    match r1 with
    | .error e => rfl
    | .ok u =>
      match r2 with
      | .error e => rfl
      | .ok v => rfl
  · unfold runClick
    rw [if_neg hn]
    match r1 with
    | .error e => simp
    | .ok u =>
      match r2 with
      | .error e => simp
      | .ok v => simp

theorem C3_runBtn_cleanup_witness :
    ({ initState with pyReady := true } : AppState).pyReady = true ∧
    ((runningState { initState with pyReady := true }).runBtnDisabled = true ∧
     (runClick (.ok ()) (.error "ZeroDivisionError: division by zero")
        (.ok ([], [])) { initState with pyReady := true }).1.runBtnDisabled = false ∧
     (runClick (.ok ()) (.error "ZeroDivisionError: division by zero")
        (.ok ([], [])) { initState with pyReady := true }).2 ≠ []) :=
  ⟨rfl, C3_runBtn_cleanup (.ok ()) (.error "ZeroDivisionError: division by zero")
    (.ok ([], [])) { initState with pyReady := true } rfl⟩

theorem str_ext (a b : String) (h : a.data = b.data) : a = b := by
  cases a
  cases b
  simp only at h
  rw [h]

theorem str_append_assoc (a b c : String) : a ++ b ++ c = a ++ (b ++ c) := by
  apply str_ext
  simp [str_data_append, List.append_assoc]

theorem renderVars_foldl (vars : List (String × String)) (acc : String) :
    vars.foldl (fun acc kv => acc ++ kv.1 ++ " = " ++ kv.2 ++ "\n") acc =
      acc ++ varLines vars := by
  induction vars generalizing acc with
  | nil => simp [varLines, List.foldl]
  | cons kv rest ih =>
    rw [List.foldl_cons, ih]
    apply str_ext
    simp [varLines, str_data_append, List.append_assoc]

/-- C5: after a successful inspection the variable panel shows the
rendering of exactly those globals whose name neither starts with the
double-underscore prefix nor occurs in the builtin namespace, mapped to
their textual representation; the rendering is "(no variables)" for an
empty mapping and otherwise one `name = value` line per entry in
iteration order; and an inspection failure only appends to the developer
console, changing nothing else (in particular it is a total function:
nothing is surfaced to the user and the run flow continues). -/
theorem C5_variable_snapshot (g : List (String × String)) (b : List String)
    (e : String) (st : AppState) (h : st.pyReady = true) :
    (updateVariables (.ok (g, b)) st).variablesText = renderVars (pyVarsFilter g b) ∧
    (∀ k v, (k, v) ∈ pyVarsFilter g b ↔
      (k, v) ∈ g ∧ startsWithDunder k = false ∧ b.contains k = false) ∧
    renderVars [] = "(no variables)" ∧
    (∀ vars : List (String × String), vars ≠ [] → renderVars vars = varLines vars) ∧
    updateVariables (.error e) st =
      { st with consoleLog := st.consoleLog ++ ["Error updating variables: " ++ e] } := by
  have hn : ¬ st.pyReady = false := by simp [h]
  refine ⟨?_, ?_, rfl, ?_, ?_⟩
  · unfold updateVariables
    rw [if_neg hn]
  · intro k v
    simp [pyVarsFilter, List.mem_filter]
  · intro vars hv
    unfold renderVars
    rw [if_neg (by simpa [List.length_eq_zero] using hv)]
    simpa using renderVars_foldl vars ""
  · unfold updateVariables
    rw [if_neg hn]

theorem C5_variable_snapshot_witness :
    ({ initState with pyReady := true } : AppState).pyReady = true ∧
    ((updateVariables (.ok ([("x", "5"), ("__name__", "'__main__'"), ("print", "<built-in>")],
        ["print"])) { initState with pyReady := true }).variablesText =
      renderVars (pyVarsFilter [("x", "5"), ("__name__", "'__main__'"), ("print", "<built-in>")]
        ["print"]) ∧
     (∀ k v, (k, v) ∈ pyVarsFilter
        [("x", "5"), ("__name__", "'__main__'"), ("print", "<built-in>")] ["print"] ↔
       (k, v) ∈ [("x", "5"), ("__name__", "'__main__'"), ("print", "<built-in>")] ∧
         startsWithDunder k = false ∧ (["print"] : List String).contains k = false) ∧
     renderVars [] = "(no variables)" ∧
     (∀ vars : List (String × String), vars ≠ [] → renderVars vars = varLines vars) ∧
     updateVariables (.error "PythonError") { initState with pyReady := true } =
       { { initState with pyReady := true } with
           consoleLog := ({ initState with pyReady := true } : AppState).consoleLog ++
             ["Error updating variables: " ++ "PythonError"] }) :=
  ⟨rfl, C5_variable_snapshot
    [("x", "5"), ("__name__", "'__main__'"), ("print", "<built-in>")] ["print"]
    "PythonError" { initState with pyReady := true } rfl⟩

theorem containsSub_false_iff (needle hay : List Char) :
    containsSub needle hay = false ↔ countOccur needle hay = 0 := by
  induction hay with
  | nil =>
    by_cases hn : needle.isEmpty <;> simp [containsSub, countOccur, hn]
  | cons c t ih =>
    by_cases hp : needle.isPrefixOf (c :: t) <;>
      simp [containsSub, countOccur, hp, ih]

theorem isPrefixOf_append_cons :
    ∀ (n a b : List Char) (c : Char), c ∉ n →
      n.isPrefixOf (a ++ c :: b) = n.isPrefixOf a
  | [], a, b, c, _ => by simp [List.isPrefixOf]
  | x :: n', [], b, c, hc => by
    have hx : (x == c) = false := by
      have : x ≠ c := fun hxc => hc (hxc ▸ List.mem_cons_self x n')
      simpa using this
    simp [List.isPrefixOf, hx]
  | x :: n', a0 :: a', b, c, hc => by
    simp only [List.cons_append, List.isPrefixOf, List.append_eq]
    rw [isPrefixOf_append_cons n' a' b c (fun hmem => hc (List.mem_cons_of_mem _ hmem))]

theorem countOccur_append_cons (n : List Char) (c : Char) (hc : c ∉ n) (hne : n ≠ []) :
    ∀ (a b : List Char),
      countOccur n (a ++ c :: b) = countOccur n a + countOccur n (c :: b)
  | [], b => by
    match n, hne with
    | x :: n', _ => simp [countOccur, List.isEmpty]
  | a0 :: a', b => by
    have h1 : n.isPrefixOf ((a0 :: a') ++ c :: b) = n.isPrefixOf (a0 :: a') :=
      isPrefixOf_append_cons n (a0 :: a') b c hc
    calc countOccur n ((a0 :: a') ++ c :: b)
        = (if n.isPrefixOf ((a0 :: a') ++ c :: b) then 1 else 0) +
            countOccur n (a' ++ c :: b) := rfl
      _ = (if n.isPrefixOf (a0 :: a') then 1 else 0) +
            (countOccur n a' + countOccur n (c :: b)) := by
          rw [h1, countOccur_append_cons n c hc hne a' b]
      _ = countOccur n (a0 :: a') + countOccur n (c :: b) := by
          show _ = ((if n.isPrefixOf (a0 :: a') then 1 else 0) + countOccur n a') + _
          omega

theorem footerMark_ne_nil : footerMark.data ≠ [] := by decide

theorem nl_not_mem_footerMark : '\n' ∉ footerMark.data := by decide

theorem contains_ensureNL (code : String)
    (h1 : containsSub footerMark.data code.data = false) :
    containsSub footerMark.data (ensureNL code).data = false := by
  unfold ensureNL
  split
  · rw [containsSub_false_iff] at h1 ⊢
    have hdata : (code ++ "\n").data = code.data ++ '\n' :: [] := rfl
    rw [hdata,
      countOccur_append_cons footerMark.data '\n' nl_not_mem_footerMark footerMark_ne_nil
        code.data [], h1]
    decide
  · exact h1

theorem head_nl_takeWhile_pos (l : List Char) (h : l.head? = some '\n') :
    0 < (l.takeWhile (fun c => c == '\n')).length := by
  cases l with
  | nil => simp at h
  | cons a t =>
    have ha : a = '\n' := by simpa using h
    simp [List.takeWhile_cons, ha]

theorem trailingNL_pos_of_endsWithNLb (s : String) (h : endsWithNLb s = true) :
    1 ≤ trailingNL s := by
  unfold trailingNL
  apply head_nl_takeWhile_pos
  rw [List.head?_reverse]
  simpa [endsWithNLb] using h

theorem trailingNL_ensureNL (code : String) (h : code ≠ "") :
    1 ≤ trailingNL (ensureNL code) := by
  unfold ensureNL
  split
  · exact trailingNL_pos_of_endsWithNLb _ (endsWithNLb_append_nl code)
  · rename_i hcond
    have hlen : (code.length != 0) = true := by
      simp only [bne_iff_ne, ne_eq]
      intro h0
      exact (str_ne_empty_iff code).mp h (List.length_eq_zero.mp h0)
    have hend : endsWithNLb code = true := by
      by_cases hc : endsWithNLb code
      · exact hc
      · exact absurd (by simp [hc, hlen]) hcond
    exact trailingNL_pos_of_endsWithNLb _ hend

theorem countOccur_downloadContent (code : String)
    (h1 : containsSub footerMark.data code.data = false) :
    countOccur footerMark.data (downloadContent code).data = 1 := by
  have h2 := contains_ensureNL code h1
  unfold downloadContent
  simp only [h2, Bool.not_false, if_pos]
  rw [str_data_append]
  have hf : footer.data = '\n' :: ("\n# Written using GLIDE\n" : String).data := rfl
  rw [hf,
    countOccur_append_cons footerMark.data '\n' nl_not_mem_footerMark footerMark_ne_nil
      (ensureNL code).data _,
    (containsSub_false_iff _ _).mp h2]
  decide

/-- C6 counterexample: the editor content "x\n\n" does not contain the
attribution comment, yet the code portion preceding the appended footer
is "x\n\n" itself, which ends with two trailing newlines, not exactly
one — the handler appends a newline only when one is missing and never
collapses several. -/
theorem C6_counterexample :
    containsSub footerMark.data ("x\n\n" : String).data = false ∧
    downloadContent "x\n\n" = "x\n\n" ++ footer ∧
    trailingNL "x\n\n" = 2 ∧ trailingNL "x\n\n" ≠ 1 := by decide

/-- C6 (amended): for every non-empty editor content that does not
contain the attribution comment, the downloaded content is the code —
with a newline appended exactly when it lacked one — followed by the
attribution footer; that code portion ends with at least one trailing
newline (several pre-existing trailing newlines are preserved, not
collapsed to one), and the comment occurs exactly once in the whole
content, at its end. -/
theorem C6_download_footer (code : String)
    (h1 : containsSub footerMark.data code.data = false) (h2 : code ≠ "") :
    downloadContent code = ensureNL code ++ footer ∧
    1 ≤ trailingNL (ensureNL code) ∧
    countOccur footerMark.data (downloadContent code).data = 1 := by
  have hce := contains_ensureNL code h1
  refine ⟨?_, trailingNL_ensureNL code h2, countOccur_downloadContent code h1⟩
  unfold downloadContent
  simp [hce]

theorem C6_download_footer_witness :
    containsSub footerMark.data ("x" : String).data = false ∧ ("x" : String) ≠ "" ∧
    (downloadContent "x" = ensureNL "x" ++ footer ∧
     1 ≤ trailingNL (ensureNL "x") ∧
     countOccur footerMark.data (downloadContent "x").data = 1) :=
  ⟨by decide, by decide, C6_download_footer "x" (by decide) (by decide)⟩

theorem isPrefixOf_self_append : ∀ (n m : List Char), n.isPrefixOf (n ++ m) = true
  | [], _ => by simp [List.isPrefixOf]
  | x :: n', m => by simp [List.isPrefixOf, isPrefixOf_self_append n' m]

theorem isSuffixOf_append_self (n l : List Char) : n.isSuffixOf (l ++ n) = true := by
  unfold List.isSuffixOf
  rw [List.reverse_append]
  exact isPrefixOf_self_append n.reverse l.reverse

/-- C7: the download file name comes from the trimmed prompt answer,
falling back to the suggested default `glide_code.py` when the answer is
the empty string or the prompt was cancelled; a `.py` extension is
appended exactly when the chosen name does not already end in `.py`
under a case-insensitive check, so the final name always ends in `.py`
case-insensitively. -/
theorem C7_download_filename :
    downloadFilename none = "glide_code.py" ∧
    downloadFilename (some "") = "glide_code.py" ∧
    (∀ answer, downloadFilename answer =
      (if endsWithPy (promptedName answer) then promptedName answer
       else promptedName answer ++ ".py")) ∧
    (∀ answer, endsWithPy (downloadFilename answer) = true) := by
  refine ⟨by decide, by decide, fun answer => rfl, fun answer => ?_⟩
  unfold downloadFilename
  by_cases h : endsWithPy (promptedName answer)
  · simp only [h, if_true]
  · simp only [h, if_false, Bool.false_eq_true]
    unfold endsWithPy
    rw [str_data_append, List.map_append]
    have hpy : (".py" : String).data.map Char.toLower = (".py" : String).data := by decide
    rw [hpy]
    exact isSuffixOf_append_self _ _

theorem getKey_setKey (m : List (String × Bool)) (k : String) (v : Bool) :
    getKey (setKey m k v) k = some v := by
  induction m with
  | nil => simp [setKey, getKey, List.find?]
  | cons a t ih =>
    by_cases ha : (a.1 == k) = true
    · have hany : ((a :: t).any (fun p => p.1 == k)) = true := by
        rw [List.any_cons, ha, Bool.true_or]
      have hs : setKey (a :: t) k v =
          (k, v) :: t.map (fun p => if p.1 == k then (k, v) else p) := by
        unfold setKey
        rw [if_pos hany, List.map_cons, if_pos ha]
      rw [hs]
      unfold getKey
      have hfind : List.find? (fun p : String × Bool => p.1 == k)
          ((k, v) :: t.map (fun p => if p.1 == k then (k, v) else p)) = some (k, v) :=
        List.find?_cons_of_pos _ (beq_self_eq_true k)
      rw [hfind]
      rfl
    · by_cases ht : (t.any (fun p => p.1 == k)) = true
      · have hany : ((a :: t).any (fun p => p.1 == k)) = true := by
          rw [List.any_cons, ht, Bool.or_true]
        have hs : setKey (a :: t) k v =
            a :: t.map (fun p => if p.1 == k then (k, v) else p) := by
          unfold setKey
          rw [if_pos hany, List.map_cons, if_neg ha]
        rw [hs]
        unfold getKey
        have hfind : List.find? (fun p : String × Bool => p.1 == k)
            (a :: t.map (fun p => if p.1 == k then (k, v) else p)) =
            List.find? (fun p => p.1 == k)
              (t.map (fun p => if p.1 == k then (k, v) else p)) :=
          List.find?_cons_of_neg _ ha
        rw [hfind]
        have ih2 := ih
        unfold setKey at ih2
        rw [if_pos ht] at ih2
        exact ih2
      · have ha' : (a.1 == k) = false := Bool.eq_false_iff.mpr ha
        have ht' : (t.any (fun p => p.1 == k)) = false := Bool.eq_false_iff.mpr ht
        have hany : ((a :: t).any (fun p => p.1 == k)) = false := by
          rw [List.any_cons, ha', ht']
          rfl
        have hs : setKey (a :: t) k v = a :: (t ++ [(k, v)]) := by
          unfold setKey
          rw [hany]
          simp
        rw [hs]
        unfold getKey
        have hfind : List.find? (fun p : String × Bool => p.1 == k)
            (a :: (t ++ [(k, v)])) =
            List.find? (fun p => p.1 == k) (t ++ [(k, v)]) :=
          List.find?_cons_of_neg _ ha
        rw [hfind]
        have ih2 := ih
        unfold setKey at ih2
        rw [if_neg ht] at ih2
        exact ih2

/-- C8: for every toolbox section carrying a (non-empty) data key,
toggling it updates the in-memory state object at that key and rewrites
the entire stored object under the fixed namespace key; a subsequent
page load that reads the stored object restores the section's open state
to exactly the toggled value (store-then-restore round trip). -/
theorem C8_toolbox_roundtrip (env : ToolboxEnv) (k : String) (v cur : Bool)
    (h : k ≠ "") :
    (onToggle env k v).state = setKey env.state k v ∧
    (onToggle env k v).storage = some (setKey env.state k v) ∧
    getKey ((onToggle env k v).state) k = some v ∧
    restoreOpen (onToggle env k v).storage k cur = v := by
  refine ⟨rfl, rfl, getKey_setKey env.state k v, ?_⟩
  have hk : (k == "") = false := by simpa using h
  have hg : getKey (loadState (onToggle env k v).storage) k = some v := by
    simp [onToggle, loadState, getKey_setKey]
  simp [restoreOpen, hk, hg]

theorem C8_toolbox_roundtrip_witness :
    ("loops" : String) ≠ "" ∧
    ((onToggle ⟨[("loops", false)], none⟩ "loops" true).state =
       setKey [("loops", false)] "loops" true ∧
     (onToggle ⟨[("loops", false)], none⟩ "loops" true).storage =
       some (setKey [("loops", false)] "loops" true) ∧
     getKey ((onToggle ⟨[("loops", false)], none⟩ "loops" true).state) "loops" = some true ∧
     restoreOpen (onToggle ⟨[("loops", false)], none⟩ "loops" true).storage "loops" false =
       true) :=
  ⟨by decide, C8_toolbox_roundtrip ⟨[("loops", false)], none⟩ "loops" true false (by decide)⟩

theorem splitOnNL_cons_nl (rest : List Char) :
    splitOnNL ('\n' :: rest) = [] :: splitOnNL rest := rfl

theorem splitOnNL_ne_nil (l : List Char) : splitOnNL l ≠ [] := by
  rw [splitOnNL.eq_def]
  split
  · simp
  · simp
  · split <;> simp

theorem splitOnNL_cons_ne (c : Char) (rest : List Char) (hc : c ≠ '\n') :
    splitOnNL (c :: rest) =
      (c :: (splitOnNL rest).headD []) :: (splitOnNL rest).tail := by
  obtain ⟨h0, t0, heq⟩ : ∃ h0 t0, splitOnNL rest = h0 :: t0 := by
    cases hsp : splitOnNL rest with
    | nil => exact absurd hsp (splitOnNL_ne_nil rest)
    | cons h0 t0 => exact ⟨h0, t0, rfl⟩
  conv_lhs => rw [splitOnNL.eq_def]
  split
  · rename_i heq2
    exact absurd heq2 (by simp)
  · rename_i rest2 heq2
    injection heq2 with h1 h2
    exact absurd h1 hc
  · rename_i x c2 rest2 hne heq2
    injection heq2 with h1 h2
    subst h1
    subst h2
    rw [heq]
    simp

theorem splitOnNL_length (l : List Char) :
    (splitOnNL l).length = l.count '\n' + 1 := by
  induction l with
  | nil => rfl
  | cons c rest ih =>
    by_cases hc : c = '\n'
    · subst hc
      rw [splitOnNL_cons_nl]
      simp [List.count_cons, ih]
    · rw [splitOnNL_cons_ne c rest hc]
      have hlen : (splitOnNL rest).tail.length = (splitOnNL rest).length - 1 :=
        List.length_tail _
      simp only [List.length_cons, hlen, ih, List.count_cons]
      have hcc : ('\n' == c) = false := by
        simpa using fun h => hc h.symm
      simp [hcc]
      exact hc

theorem joinNL_splitOnNL (l : List Char) : joinNL (splitOnNL l) = l := by
  induction l with
  | nil => rfl
  | cons c rest ih =>
    obtain ⟨h0, t0, heq⟩ : ∃ h0 t0, splitOnNL rest = h0 :: t0 := by
      cases hsp : splitOnNL rest with
      | nil => exact absurd hsp (splitOnNL_ne_nil rest)
      | cons h0 t0 => exact ⟨h0, t0, rfl⟩
    by_cases hc : c = '\n'
    · subst hc
      rw [splitOnNL_cons_nl, heq]
      rw [heq] at ih
      show [] ++ '\n' :: joinNL (h0 :: t0) = '\n' :: rest
      rw [ih]
      rfl
    · rw [splitOnNL_cons_ne c rest hc, heq]
      rw [heq] at ih
      cases t0 with
      | nil =>
        show c :: h0 = c :: rest
        rw [show joinNL [h0] = h0 from rfl] at ih
        rw [ih]
      | cons y t1 =>
        show (c :: h0) ++ '\n' :: joinNL (y :: t1) = c :: rest
        rw [show joinNL (h0 :: y :: t1) = h0 ++ '\n' :: joinNL (y :: t1) from rfl] at ih
        rw [List.cons_append, ih]

theorem jsTrim_eq_nil_iff (l : List Char) :
    ((l.dropWhile Char.isWhitespace).reverse.dropWhile Char.isWhitespace).reverse = [] ↔
      ∀ x ∈ l, x.isWhitespace = true := by
  rw [List.reverse_eq_nil_iff, List.dropWhile_eq_nil_iff]
  constructor
  · intro h x hx
    rw [← List.takeWhile_append_dropWhile Char.isWhitespace l] at hx
    rcases List.mem_append.mp hx with hx1 | hx2
    · exact List.mem_takeWhile_imp hx1
    · exact h x (List.mem_reverse.mpr hx2)
  · intro h x hx
    exact h x ((List.dropWhile_sublist Char.isWhitespace).mem (List.mem_reverse.mp hx))

theorem jsTrim_len_pos_iff (l : List Char) :
    0 < (jsTrim (String.mk l)).length ↔ ∃ c ∈ l, c.isWhitespace = false := by
  have hdata : (jsTrim (String.mk l)).data =
      ((l.dropWhile Char.isWhitespace).reverse.dropWhile Char.isWhitespace).reverse := rfl
  show 0 < (jsTrim (String.mk l)).data.length ↔ _
  rw [hdata, List.length_pos, ne_eq, jsTrim_eq_nil_iff]
  simp [Bool.not_eq_true]

theorem replaceRange_line (d : Doc) (text : String) (p : Pos) :
    (replaceRange d text p).2.line = p.line + text.data.count '\n' := rfl

theorem replaceRange_lines (d : Doc) (text : String) (p : Pos) :
    (replaceRange d text p).1.lines =
      d.lines.take p.line ++
        (splitOnNL ((cursorLineText d p).take p.ch ++ text.data ++
          (cursorLineText d p).drop p.ch)).map String.mk ++
        d.lines.drop (p.line + 1) := rfl

theorem insertSnippet_endPos (d : Doc) (c : Pos) (s : String) :
    (insertSnippet d c s).endPos =
      (replaceRange d
        ((if 0 < (jsTrim (String.mk (beforeCursor d c))).length then ("\n" : String) else "")
          ++ s) c).2 := rfl

theorem insertSnippet_doc (d : Doc) (c : Pos) (s : String) :
    (insertSnippet d c s).doc =
      (replaceRange d
        ((if 0 < (jsTrim (String.mk (beforeCursor d c))).length then ("\n" : String) else "")
          ++ s) c).1 := rfl

theorem insertSnippet_indented (d : Doc) (c : Pos) (s : String) :
    (insertSnippet d c s).indented =
      List.range' ((insertSnippet d c s).endPos.line - ((splitOnNL s.data).length - 1))
        ((insertSnippet d c s).endPos.line -
          ((insertSnippet d c s).endPos.line - ((splitOnNL s.data).length - 1)) + 1) := rfl

theorem count_nl_cons (s : String) :
    (("\n" : String) ++ s).data.count '\n' = s.data.count '\n' + 1 := by
  rw [show (("\n" : String) ++ s).data = '\n' :: s.data from rfl]
  simp [List.count_cons]

/-- C9: a snippet insertion prefixes a newline exactly when the portion
of the cursor's line before the cursor contains a non-whitespace
character; the cursor ends on line `cursor.line + prefix + newlines(snippet)`;
the list of lines passed to the editor's automatic indentation rule is
exactly the inserted block, from the first inserted line through the
line where the cursor ends up; and the new document is the old one with
the cursor's line replaced by the newline-split of
`before ++ prefix ++ snippet ++ after`. -/
theorem C9_insertSnippet_spec (d : Doc) (c : Pos) (s : String) :
    ((0 < (jsTrim (String.mk (beforeCursor d c))).length) ↔
      ∃ ch ∈ beforeCursor d c, ch.isWhitespace = false) ∧
    (insertSnippet d c s).endPos.line =
      c.line + (if 0 < (jsTrim (String.mk (beforeCursor d c))).length then 1 else 0) +
        s.data.count '\n' ∧
    (insertSnippet d c s).indented =
      List.range'
        (c.line + (if 0 < (jsTrim (String.mk (beforeCursor d c))).length then 1 else 0))
        (s.data.count '\n' + 1) ∧
    ∃ segs : List String,
      (insertSnippet d c s).doc.lines =
        d.lines.take c.line ++ segs ++ d.lines.drop (c.line + 1) ∧
      joinNL (segs.map String.data) =
        beforeCursor d c ++
          (if 0 < (jsTrim (String.mk (beforeCursor d c))).length then ['\n'] else ([] : List Char))
          ++ s.data ++ (cursorLineText d c).drop c.ch := by
  have hB : (splitOnNL s.data).length - 1 = s.data.count '\n' := by
    rw [splitOnNL_length]
    omega
  refine ⟨jsTrim_len_pos_iff _, ?_, ?_, ?_⟩
  · by_cases hpre : 0 < (jsTrim (String.mk (beforeCursor d c))).length
    · rw [insertSnippet_endPos, if_pos hpre, replaceRange_line, count_nl_cons, if_pos hpre]
      omega
    · rw [insertSnippet_endPos, if_neg hpre, replaceRange_line,
        show (("" : String) ++ s).data = s.data from rfl, if_neg hpre]
      omega
  · rw [insertSnippet_indented, hB]
    by_cases hpre : 0 < (jsTrim (String.mk (beforeCursor d c))).length
    · rw [insertSnippet_endPos, if_pos hpre, replaceRange_line, count_nl_cons, if_pos hpre]
      congr 1 <;> omega
    · rw [insertSnippet_endPos, if_neg hpre, replaceRange_line,
        show (("" : String) ++ s).data = s.data from rfl, if_neg hpre]
      congr 1 <;> omega
  · by_cases hpre : 0 < (jsTrim (String.mk (beforeCursor d c))).length
    · refine ⟨(splitOnNL ((cursorLineText d c).take c.ch ++ (("\n" : String) ++ s).data ++
        (cursorLineText d c).drop c.ch)).map String.mk, ?_, ?_⟩
      · rw [insertSnippet_doc, if_pos hpre, replaceRange_lines]
      · rw [if_pos hpre]
        have hmm : ((splitOnNL ((cursorLineText d c).take c.ch ++ (("\n" : String) ++ s).data ++
            (cursorLineText d c).drop c.ch)).map String.mk).map String.data =
            splitOnNL ((cursorLineText d c).take c.ch ++ (("\n" : String) ++ s).data ++
              (cursorLineText d c).drop c.ch) := by
          rw [List.map_map]
          show List.map (fun a => a) _ = _
          exact List.map_id' _
        rw [hmm, joinNL_splitOnNL,
          show (("\n" : String) ++ s).data = '\n' :: s.data from rfl]
        show _ = beforeCursor d c ++ ['\n'] ++ s.data ++ (cursorLineText d c).drop c.ch
        unfold beforeCursor
        simp [List.append_assoc]
    · refine ⟨(splitOnNL ((cursorLineText d c).take c.ch ++ (("" : String) ++ s).data ++
        (cursorLineText d c).drop c.ch)).map String.mk, ?_, ?_⟩
      · rw [insertSnippet_doc, if_neg hpre, replaceRange_lines]
      · rw [if_neg hpre]
        have hmm : ((splitOnNL ((cursorLineText d c).take c.ch ++ (("" : String) ++ s).data ++
            (cursorLineText d c).drop c.ch)).map String.mk).map String.data =
            splitOnNL ((cursorLineText d c).take c.ch ++ (("" : String) ++ s).data ++
              (cursorLineText d c).drop c.ch) := by
          rw [List.map_map]
          show List.map (fun a => a) _ = _
          exact List.map_id' _
        rw [hmm, joinNL_splitOnNL, show (("" : String) ++ s).data = s.data from rfl]
        show _ = beforeCursor d c ++ [] ++ s.data ++ (cursorLineText d c).drop c.ch
        unfold beforeCursor
        simp [List.append_assoc]

/-- C10: every non-empty prompt answer consisting only of whitespace
characters is truthy in JS, so the default-name fallback is skipped; the
answer is trimmed to the empty string and the resulting download file
name is exactly ".py". -/
theorem C10_whitespace_filename (a : String) (h1 : a ≠ "")
    (h2 : ∀ c ∈ a.data, c.isWhitespace = true) :
    promptedName (some a) = "" ∧ downloadFilename (some a) = ".py" := by
  have hp : promptedName (some a) = "" := by
    show jsTrim (if a = "" then defaultName else a) = ""
    rw [if_neg h1]
    apply str_ext
    show ((a.data.dropWhile Char.isWhitespace).reverse.dropWhile
      Char.isWhitespace).reverse = ("" : String).data
    exact (jsTrim_eq_nil_iff a.data).mpr h2
  refine ⟨hp, ?_⟩
  show (if endsWithPy (promptedName (some a)) then promptedName (some a)
        else promptedName (some a) ++ ".py") = ".py"
  rw [hp, if_neg (by decide : ¬ endsWithPy ("" : String) = true)]
  decide

theorem C10_whitespace_filename_witness :
    ("   " : String) ≠ "" ∧ (∀ c ∈ ("   " : String).data, c.isWhitespace = true) ∧
    (promptedName (some "   ") = "" ∧ downloadFilename (some "   ") = ".py") :=
  ⟨by decide, by decide, C10_whitespace_filename "   " (by decide) (by decide)⟩
